import Mathlib

/-!
Shallow embedding of the Job Tracking & Resumable Client State subsystem
of the Converter repository: the persistent cache (static/js/storage.js,
class StorageManager with the in-memory CACHE mirror), the polling state
machine (ConversionManager.pollJobStatus), the resumption coordinator
(ConversionManager.checkAndResumeJob) and the call flows that mutate the
cache (UIManager.startConversion, ConversionManager._complete, _err,
_connLost, resetForm, handleConvertAnother).

Timestamps are naturals (milliseconds, as Date.now()).  Poll intervals are
rationals, because the JS backoff multiplies by 1.5 and the resulting
values (1500 * 1.5^k, capped) are not integers; they are exactly
representable as binary floats in JS, so rational arithmetic is faithful.
The fallible localStorage backend is modelled by a Boolean flag per write
(true iff localStorage.setItem succeeded); the JS try/catch that swallows
the failure makes every save operation total, which the embedding mirrors
by returning a state in both cases.
-/

namespace Converter

/-- TTL = 864e5 ms = 24 hours (storage.js, const TTL). -/
def STORAGE_TTL : Nat := 24 * 60 * 60 * 1000

/-- MAX_HISTORY_ITEMS (storage.js, const LIM). -/
def LIM : Nat := 3

/-- The durable envelope: a value together with the Date.now() timestamp
recorded when it was saved (storage.js, the object spread in _save). -/
structure Timed (α : Type) where
  value : α
  timestamp : Nat
deriving DecidableEq

/-- One key of the persistent cache: the in-memory mirror (the CACHE Map)
and the durable localStorage slot for that key. -/
structure Cell (α : Type) where
  mirror : Option (Timed α)
  durable : Option (Timed α)
deriving DecidableEq

namespace Cell

/-- A key with nothing stored under it. -/
def empty {α : Type} : Cell α := ⟨none, none⟩

/-- StorageManager._clear(key): CACHE.delete(key); localStorage.removeItem(key). -/
def clear {α : Type} (_c : Cell α) : Cell α := ⟨none, none⟩

/-- StorageManager._save(key, val): wraps val with Date.now(), writes the
mirror first (CACHE.set) and then the durable store (localStorage.setItem,
which may throw; the catch swallows it, leaving the durable slot
unchanged).  durableOk is true iff the setItem call succeeded. -/
def save {α : Type} (c : Cell α) (v : α) (now : Nat) (durableOk : Bool) : Cell α :=
  let data : Timed α := ⟨v, now⟩
  { mirror := some data
    durable := if durableOk then some data else c.durable }

/-- StorageManager._get(key, clearFromStorage = true): read the mirror; on a
mirror miss reconstruct from the durable store (also refreshing the
mirror); then evict and return null when now - timestamp > TTL, else
return the entry.  Returns the read result and the updated cell. -/
def get {α : Type} (c : Cell α) (now : Nat) : Option (Timed α) × Cell α :=
  match c.mirror with
  | some data =>
      if now - data.timestamp > STORAGE_TTL then (none, clear c)
      else (some data, c)
  | none =>
      match c.durable with
      | none => (none, c)
      | some data =>
          let c1 : Cell α := { c with mirror := some data }
          if now - data.timestamp > STORAGE_TTL then (none, clear c1)
          else (some data, c1)

/-- Whether anything is stored under the key, in the mirror or durably. -/
def present {α : Type} (c : Cell α) : Bool := c.mirror.isSome || c.durable.isSome

end Cell

/-- The activeJob value: { jobId, format } (StorageManager.saveActiveJob). -/
structure ActiveJob where
  jobId : String
  format : String
deriving DecidableEq

/-- The params object attached by the server to a finished job, as read by
the UI (data.params.fps, .width, .height, .output_size_mb). -/
structure ConvParams where
  fps : Nat
  width : Nat
  height : Nat
  output_size_mb : Nat
deriving DecidableEq

/-- The completedResult value: { gifUrl, params, format }
(StorageManager.saveCompletedResult); params may be null. -/
structure CompletedResult where
  gifUrl : String
  params : Option ConvParams
  format : String
deriving DecidableEq

/-- The two watched single-value keys of the persistent cache. -/
structure Store where
  activeJob : Cell ActiveJob
  completedResult : Cell CompletedResult
deriving DecidableEq

namespace Store

def empty : Store := ⟨Cell.empty, Cell.empty⟩

end Store

/-- StorageManager.saveActiveJob(jobId, format) = _save('activeJob', { jobId, format }). -/
def saveActiveJob (s : Store) (jobId format : String) (now : Nat) (durableOk : Bool) : Store :=
  { s with activeJob := s.activeJob.save ⟨jobId, format⟩ now durableOk }

/-- StorageManager.getActiveJob() = _get('activeJob', true). -/
def getActiveJob (s : Store) (now : Nat) : Option (Timed ActiveJob) × Store :=
  let r := s.activeJob.get now
  (r.1, { s with activeJob := r.2 })

/-- StorageManager.clearActiveJob() = _clear('activeJob'). -/
def clearActiveJob (s : Store) : Store :=
  { s with activeJob := s.activeJob.clear }

/-- StorageManager.saveCompletedResult(gifUrl, params, format):
_save('completedResult', { gifUrl, params: params || null, format });
this.clearActiveJob().  (params || null is the identity on the Option.) -/
def saveCompletedResult (s : Store) (gifUrl : String) (params : Option ConvParams)
    (format : String) (now : Nat) (durableOk : Bool) : Store :=
  let s1 := { s with completedResult := s.completedResult.save ⟨gifUrl, params, format⟩ now durableOk }
  clearActiveJob s1

/-- StorageManager.getCompletedResult() = _get('completedResult', true). -/
def getCompletedResult (s : Store) (now : Nat) : Option (Timed CompletedResult) × Store :=
  let r := s.completedResult.get now
  (r.1, { s with completedResult := r.2 })

/-- StorageManager.clearCompletedResult() = _clear('completedResult'). -/
def clearCompletedResult (s : Store) : Store :=
  { s with completedResult := s.completedResult.clear }

/-- One entry of the conversionHistory list:
{ url, format, params, timestamp, date } (StorageManager.saveToHistory).
The date field is a human-readable rendering of the clock
(new Date().toLocaleString()); the embedding renders the millisecond
clock value directly. -/
structure HistoryEntry where
  url : String
  format : String
  params : Option ConvParams
  timestamp : Nat
  date : String
deriving DecidableEq

/-- The value-level content of StorageManager.getHistory(): the stored list
filtered to entries with now - timestamp < TTL (the filtered list is also
re-persisted, which at the value level is the returned list itself). -/
def getHistoryList (h : List HistoryEntry) (now : Nat) : List HistoryEntry :=
  h.filter (fun e => now - e.timestamp < STORAGE_TTL)

/-- StorageManager.saveToHistory(url, format, params): read the (filtered)
history, unshift the new entry carrying Date.now(), truncate to LIM when
the length exceeds LIM (history.length = LIM), persist. -/
def saveToHistory (h : List HistoryEntry) (url format : String)
    (params : Option ConvParams) (now : Nat) : List HistoryEntry :=
  let history := getHistoryList h now
  let history1 := ⟨url, format, params, now, toString now⟩ :: history
  if history1.length > LIM then history1.take LIM else history1

/-- The arguments of one saveToHistory call, with the Date.now() value
ambient at that call. -/
structure PushCall where
  url : String
  format : String
  params : Option ConvParams
  now : Nat
deriving DecidableEq

/-- The HistoryEntry a given saveToHistory call prepends. -/
def PushCall.entry (p : PushCall) : HistoryEntry :=
  ⟨p.url, p.format, p.params, p.now, toString p.now⟩

/-- A sequence of saveToHistory calls applied to an initial history list. -/
def runHistory (h : List HistoryEntry) (pushes : List PushCall) : List HistoryEntry :=
  pushes.foldl (fun acc p => saveToHistory acc p.url p.format p.params p.now) h

/-!  The polling state machine (ConversionManager.pollJobStatus).

The loop body is driven by its environment: at each iteration either the
page is hidden (no request is made, the loop just waits out the interval),
or a status request is issued and either resolves to a parsed body or
fails (network error, timeout, non-2xx, all of which throw into the same
catch).  A finite script of such environment events determines the run. -/

/-- The timing/retry profile: baseInterval = isMobile ? 5000 : 1500,
maxErrors = isMobile ? 3 : 5. -/
structure PollConfig where
  baseInterval : ℚ
  maxErrors : Nat
deriving DecidableEq

/-- The standard (desktop) profile. -/
def standardConfig : PollConfig := ⟨1500, 5⟩

/-- The mobile / constrained profile. -/
def mobileConfig : PollConfig := ⟨5000, 3⟩

/-- The status field of a /progress response. -/
inductive JobStatus
  | queued
  | running
  | predict
  | done
  | error
  | cancelled
deriving DecidableEq

/-- One environment event seen by one iteration of the poll loop. -/
inductive PollEvent
  | hidden
  | response (s : JobStatus)
  | failure
deriving DecidableEq

/-- The mutable locals of pollJobStatus: interval, errs, lastSt. -/
structure PollState where
  interval : ℚ
  errs : Nat
  lastSt : Option JobStatus
deriving DecidableEq

/-- The locals as initialised at the top of pollJobStatus:
interval = baseInt, errs = 0, lastSt = null. -/
def PollConfig.initState (cfg : PollConfig) : PollState :=
  ⟨cfg.baseInterval, 0, none⟩

/-- How the loop can return: _complete (status done), _err (status error or
cancelled), _connLost (error budget exhausted). -/
inductive Terminal
  | completed
  | failed
  | connectionLost
deriving DecidableEq

/-- The effect of one loop iteration: either the loop continues with
updated locals (issued records whether a status request was made this
iteration), or it returns. -/
inductive StepRes
  | next (st : PollState) (issued : Bool)
  | stop (t : Terminal) (st : PollState)
deriving DecidableEq

/-- One iteration of the while loop in pollJobStatus.
hidden: if (!pageVisible) await wait(interval); continue
response: errs = 0; interval = baseInt; lastSt = status; return on
done / error / cancelled, else fall through to wait(interval)
failure (catch): errs++; interval = min(interval * 1.5, 3e4);
return _connLost() when errs >= maxErrs, else fall through. -/
def pollStep (cfg : PollConfig) (st : PollState) : PollEvent → StepRes
  | .hidden => .next st false
  | .response s =>
      let st1 : PollState := { interval := cfg.baseInterval, errs := 0, lastSt := some s }
      if s = .done then .stop .completed st1
      else if s = .error ∨ s = .cancelled then .stop .failed st1
      else .next st1 true
  | .failure =>
      let st1 : PollState :=
        { interval := min (st.interval * (3 / 2 : ℚ)) 30000
          errs := st.errs + 1
          lastSt := st.lastSt }
      if cfg.maxErrors ≤ st1.errs then .stop .connectionLost st1
      else .next st1 true

/-- Number of status requests the iteration driven by this event issues. -/
def eventIssues : PollEvent → Nat
  | .hidden => 0
  | .response _ => 1
  | .failure => 1

/-- Result of running the loop over a finite event script: the way it
returned (none while still polling), the final locals, and the total
number of status requests issued. -/
structure RunResult where
  outcome : Option Terminal
  state : PollState
  requests : Nat
deriving DecidableEq

/-- Run the poll loop over a script of environment events.  After the loop
returns, remaining events are never consumed: the function stops exactly
where the JS loop returns. -/
def pollRun (cfg : PollConfig) (st : PollState) : List PollEvent → RunResult
  | [] => ⟨none, st, 0⟩
  | e :: es =>
      match pollStep cfg st e with
      | .next st1 _ =>
          let r := pollRun cfg st1 es
          ⟨r.outcome, r.state, eventIssues e + r.requests⟩
      | .stop t st1 => ⟨some t, st1, eventIssues e⟩

/-- The locals after one iteration, whether or not the loop returned. -/
def stepState (cfg : PollConfig) (st : PollState) (e : PollEvent) : PollState :=
  match pollStep cfg st e with
  | .next st1 _ => st1
  | .stop _ st1 => st1

/-- The invariant the backoff maintains on the poll interval: it stays
between the profile's base and the 30-second cap. -/
def goodInterval (cfg : PollConfig) (st : PollState) : Prop :=
  cfg.baseInterval ≤ st.interval ∧ st.interval ≤ 30000

/-!  Storage effects of the terminal handlers and of the call flows that
surround the tracker (ConversionManager._complete / _err / _connLost,
UIManager.startConversion / resetForm / handleConvertAnother). -/

/-- The cache effect of ConversionManager._complete(data, fmt):
StorageManager.clearActiveJob(); ...; StorageManager.saveCompletedResult
(gif_url, params, fmt).  (saveCompletedResult clears the active job again
internally.)  The history append is tracked separately by runHistory. -/
def handleJobComplete (s : Store) (gifUrl : String) (params : Option ConvParams)
    (format : String) (now : Nat) (durableOk : Bool) : Store :=
  saveCompletedResult (clearActiveJob s) gifUrl params format now durableOk

/-- The cache effect of ConversionManager._err(data):
StorageManager.clearActiveJob(). -/
def handleJobError (s : Store) : Store := clearActiveJob s

/-- The cache effect of ConversionManager._connLost():
StorageManager.clearActiveJob(). -/
def handleConnectionLost (s : Store) : Store := clearActiveJob s

/-!  The resumption coordinator (ConversionManager.checkAndResumeJob). -/

/-- Outcome of the single reconciliation request checkAndResumeJob issues:
failed covers a network error, a timeout, a non-ok response, and a body
that fails to parse (all throw into the same catch); ok carries the parsed
body's status field, which may be missing (falsy). -/
inductive RemoteOutcome
  | failed
  | ok (status : Option JobStatus)
deriving DecidableEq

/-- What checkAndResumeJob did. -/
inductive ResumeAction
  | displayedCompleted (r : Timed CompletedResult)
  | nothing
  | clearedStale
  | resumedPolling (jobId format : String)
deriving DecidableEq

/-- Observable result of checkAndResumeJob: the action taken, the cache
state it leaves behind, the number of status requests it issued and
whether it re-entered the polling loop. -/
structure ResumeResult where
  action : ResumeAction
  store : Store
  requests : Nat
  pollStarted : Bool
deriving DecidableEq

/-- ConversionManager.checkAndResumeJob():
1. getCompletedResult(): when present, display it and return (no request).
2. getActiveJob(): when absent, return (no request).
3. Otherwise issue one status request for the saved job:
on a throw (network down, timeout, non-ok, parse failure) clearActiveJob;
on a body whose status is present and not done/error/cancelled, re-enter
pollJobStatus for the saved job; otherwise clearActiveJob. -/
def checkAndResumeJob (s : Store) (now : Nat) (remote : RemoteOutcome) : ResumeResult :=
  let rc := getCompletedResult s now
  match rc.1 with
  | some saved => ⟨.displayedCompleted saved, rc.2, 0, false⟩
  | none =>
      let rj := getActiveJob rc.2 now
      match rj.1 with
      | none => ⟨.nothing, rj.2, 0, false⟩
      | some job =>
          match remote with
          | .failed => ⟨.clearedStale, clearActiveJob rj.2, 1, false⟩
          | .ok st? =>
              match st? with
              | some st =>
                  if ¬(st = .done ∨ st = .error ∨ st = .cancelled) then
                    ⟨.resumedPolling job.value.jobId job.value.format, rj.2, 1, true⟩
                  else
                    ⟨.clearedStale, clearActiveJob rj.2, 1, false⟩
              | none => ⟨.clearedStale, clearActiveJob rj.2, 1, false⟩

/-!  The cache operations the application can perform, at the granularity
of the flows that appear in the source.  saveActiveJob is only ever called
inside the upload-success callback of UIManager.startConversion, whose
first statement is StorageManager.clearCompletedResult(); the other
constructors mirror the remaining call sites of the four
activeJob / completedResult mutators. -/
inductive AppOp
  | startJob (jobId format : String) (now : Nat) (durableOk : Bool)
  | startAborted
  | completeJob (gifUrl : String) (params : Option ConvParams) (format : String)
      (now : Nat) (durableOk : Bool)
  | failJob
  | connLost
  | resetForm
  | convertAnother
  | readActive (now : Nat)
  | readCompleted (now : Nat)
  | resumeCheck (now : Nat) (remote : RemoteOutcome)
  | invalidateActiveMirror
  | invalidateCompletedMirror

/-- The cache effect of each flow.
startJob: startConversion (clearCompletedResult first) followed by the
upload-success saveActiveJob; startAborted: startConversion whose upload
failed before saveActiveJob; completeJob/failJob/connLost: the terminal
handlers; resetForm: clearCompletedResult + clearActiveJob;
convertAnother: clearCompletedResult; readActive/readCompleted: the
getters (which may evict); resumeCheck: the coordinator; the invalidate
ops: the storage event listener CACHE.delete(e.key) fired when a sibling
tab touches a watched key. -/
def applyOp (s : Store) : AppOp → Store
  | .startJob jobId format now durableOk =>
      saveActiveJob (clearCompletedResult s) jobId format now durableOk
  | .startAborted => clearCompletedResult s
  | .completeJob gifUrl params format now durableOk =>
      handleJobComplete s gifUrl params format now durableOk
  | .failJob => handleJobError s
  | .connLost => handleConnectionLost s
  | .resetForm => clearActiveJob (clearCompletedResult s)
  | .convertAnother => clearCompletedResult s
  | .readActive now => (getActiveJob s now).2
  | .readCompleted now => (getCompletedResult s now).2
  | .resumeCheck now remote => (checkAndResumeJob s now remote).store
  | .invalidateActiveMirror => { s with activeJob := { s.activeJob with mirror := none } }
  | .invalidateCompletedMirror => { s with completedResult := { s.completedResult with mirror := none } }

/-- A sequence of application flows applied to a starting cache state. -/
def runOps (s : Store) (ops : List AppOp) : Store := ops.foldl applyOp s

/-- The mutual-exclusivity invariant: a CompletedResult and an active Job
are never both present (in mirror or durable form). -/
def exclusive (s : Store) : Prop :=
  s.activeJob.present = false ∨ s.completedResult.present = false

instance (s : Store) : Decidable (exclusive s) := by
  unfold exclusive; infer_instance

/-!  Helper lemmas about the poll loop. -/

theorem pollRun_nil (cfg : PollConfig) (st : PollState) :
    pollRun cfg st [] = ⟨none, st, 0⟩ := rfl

theorem pollRun_cons_next (cfg : PollConfig) (st st1 : PollState) (e : PollEvent)
    (issued : Bool) (es : List PollEvent) (h : pollStep cfg st e = .next st1 issued) :
    pollRun cfg st (e :: es) =
      ⟨(pollRun cfg st1 es).outcome, (pollRun cfg st1 es).state,
        eventIssues e + (pollRun cfg st1 es).requests⟩ := by
  simp [pollRun, h]

theorem pollRun_cons_stop (cfg : PollConfig) (st st1 : PollState) (e : PollEvent)
    (t : Terminal) (es : List PollEvent) (h : pollStep cfg st e = .stop t st1) :
    pollRun cfg st (e :: es) = ⟨some t, st1, eventIssues e⟩ := by
  simp [pollRun, h]

/-- Once the loop has returned within a script, appending further events
changes nothing: the JS return really stops the loop. -/
theorem pollRun_append_stop (cfg : PollConfig) (l₁ : List PollEvent) :
    ∀ (st : PollState) (l₂ : List PollEvent) (t : Terminal),
      (pollRun cfg st l₁).outcome = some t →
      pollRun cfg st (l₁ ++ l₂) = pollRun cfg st l₁ := by
  induction l₁ with
  | nil =>
      intro st l₂ t h
      simp [pollRun_nil] at h
  | cons e es ih =>
      intro st l₂ t h
      cases hs : pollStep cfg st e with
      | next st1 issued =>
          rw [pollRun_cons_next cfg st st1 e issued es hs] at h
          rw [List.cons_append, pollRun_cons_next cfg st st1 e issued (es ++ l₂) hs,
            pollRun_cons_next cfg st st1 e issued es hs, ih st1 l₂ t h]
      | stop t1 st1 =>
          rw [List.cons_append, pollRun_cons_stop cfg st st1 e t1 (es ++ l₂) hs,
            pollRun_cons_stop cfg st st1 e t1 es hs]

/-- Composition of runs while the loop is still polling. -/
theorem pollRun_append_none (cfg : PollConfig) (l₁ : List PollEvent) :
    ∀ (st : PollState) (l₂ : List PollEvent),
      (pollRun cfg st l₁).outcome = none →
      pollRun cfg st (l₁ ++ l₂) =
        ⟨(pollRun cfg (pollRun cfg st l₁).state l₂).outcome,
          (pollRun cfg (pollRun cfg st l₁).state l₂).state,
          (pollRun cfg st l₁).requests + (pollRun cfg (pollRun cfg st l₁).state l₂).requests⟩ := by
  induction l₁ with
  | nil =>
      intro st l₂ _
      simp [pollRun_nil]
  | cons e es ih =>
      intro st l₂ h
      cases hs : pollStep cfg st e with
      | next st1 issued =>
          rw [pollRun_cons_next cfg st st1 e issued es hs] at h
          rw [List.cons_append, pollRun_cons_next cfg st st1 e issued (es ++ l₂) hs,
            pollRun_cons_next cfg st st1 e issued es hs, ih st1 l₂ h]
          simp [Nat.add_assoc]
      | stop t1 st1 =>
          rw [pollRun_cons_stop cfg st st1 e t1 es hs] at h
          simp at h

/-- Iterations at which the page is hidden make no request and do not touch
the loop state: a stretch of hidden iterations is a no-op for the run. -/
theorem pollRun_replicate_hidden (cfg : PollConfig) (k : Nat) :
    ∀ (st : PollState) (rest : List PollEvent),
      pollRun cfg st (List.replicate k .hidden ++ rest) = pollRun cfg st rest := by
  induction k with
  | zero => intro st rest; simp
  | succ k ih =>
      intro st rest
      have h1 : pollStep cfg st .hidden = .next st false := rfl
      rw [List.replicate_succ, List.cons_append,
        pollRun_cons_next cfg st st .hidden false _ h1, ih st rest]
      simp [eventIssues]

/-- Running k consecutive failures while the error budget is not yet
exhausted: the loop keeps polling, the error counter adds k, and exactly k
requests are issued. -/
theorem pollRun_replicate_failure (cfg : PollConfig) (k : Nat) :
    ∀ st : PollState, st.errs + k < cfg.maxErrors →
      (pollRun cfg st (List.replicate k .failure)).outcome = none ∧
      (pollRun cfg st (List.replicate k .failure)).state.errs = st.errs + k ∧
      (pollRun cfg st (List.replicate k .failure)).requests = k := by
  induction k with
  | zero => intro st _; simp [pollRun_nil]
  | succ k ih =>
      intro st h
      have hne : ¬ (cfg.maxErrors ≤ st.errs + 1) := by omega
      have hstep : pollStep cfg st .failure =
          .next ⟨min (st.interval * (3 / 2 : ℚ)) 30000, st.errs + 1, st.lastSt⟩ true := by
        simp [pollStep, hne]
      have ih1 := ih ⟨min (st.interval * (3 / 2 : ℚ)) 30000, st.errs + 1, st.lastSt⟩
        (show st.errs + 1 + k < cfg.maxErrors by omega)
      rw [List.replicate_succ,
        pollRun_cons_next cfg st _ .failure true (List.replicate k .failure) hstep]
      refine ⟨ih1.1, ?_, ?_⟩
      · rw [ih1.2.1]
        show st.errs + 1 + k = st.errs + (k + 1)
        omega
      · rw [ih1.2.2]
        simp [eventIssues]
        omega

theorem stepState_hidden (cfg : PollConfig) (st : PollState) :
    stepState cfg st .hidden = st := rfl

theorem stepState_response (cfg : PollConfig) (st : PollState) (s : JobStatus) :
    stepState cfg st (.response s) = ⟨cfg.baseInterval, 0, some s⟩ := by
  simp only [stepState, pollStep]
  split_ifs <;> rfl

theorem stepState_failure (cfg : PollConfig) (st : PollState) :
    stepState cfg st .failure =
      ⟨min (st.interval * (3 / 2 : ℚ)) 30000, st.errs + 1, st.lastSt⟩ := by
  simp only [stepState, pollStep]
  split_ifs <;> rfl

theorem goodInterval_stepState (cfg : PollConfig) (st : PollState) (e : PollEvent)
    (hb : 0 < cfg.baseInterval) (hcap : cfg.baseInterval ≤ 30000)
    (h : goodInterval cfg st) : goodInterval cfg (stepState cfg st e) := by
  cases e with
  | hidden => rwa [stepState_hidden]
  | response s =>
      rw [stepState_response]
      exact ⟨le_refl _, hcap⟩
  | failure =>
      rw [stepState_failure]
      constructor
      · apply le_min
        · have h1 : (0 : ℚ) ≤ st.interval := le_of_lt (lt_of_lt_of_le hb h.1)
          have h2 : st.interval ≤ st.interval * (3 / 2 : ℚ) := by linarith
          exact le_trans h.1 h2
        · exact hcap
      · exact min_le_right _ _

theorem goodInterval_pollRun (cfg : PollConfig) (hb : 0 < cfg.baseInterval)
    (hcap : cfg.baseInterval ≤ 30000) (l : List PollEvent) :
    ∀ st : PollState, goodInterval cfg st → goodInterval cfg (pollRun cfg st l).state := by
  induction l with
  | nil =>
      intro st h
      rwa [pollRun_nil]
  | cons e es ih =>
      intro st h
      cases hs : pollStep cfg st e with
      | next st1 issued =>
          rw [pollRun_cons_next cfg st st1 e issued es hs]
          have h1 : goodInterval cfg st1 := by
            have h2 := goodInterval_stepState cfg st e hb hcap h
            rwa [show stepState cfg st e = st1 by simp [stepState, hs]] at h2
          exact ih st1 h1
      | stop t st1 =>
          rw [pollRun_cons_stop cfg st st1 e t es hs]
          have h2 := goodInterval_stepState cfg st e hb hcap h
          rwa [show stepState cfg st e = st1 by simp [stepState, hs]] at h2

theorem goodInterval_initState (cfg : PollConfig) (hcap : cfg.baseInterval ≤ 30000) :
    goodInterval cfg cfg.initState :=
  ⟨le_refl _, hcap⟩

/-- Exhausting the error budget from a fresh start: after exactly
maxErrors consecutive failed requests the loop returns ConnectionLost,
having issued exactly maxErrors requests, and no later event (post) is
ever consumed. -/
theorem pollRun_exhaust (cfg : PollConfig) (hM : 0 < cfg.maxErrors)
    (post : List PollEvent) :
    (pollRun cfg cfg.initState (List.replicate cfg.maxErrors .failure ++ post)).outcome
      = some .connectionLost ∧
    (pollRun cfg cfg.initState (List.replicate cfg.maxErrors .failure ++ post)).requests
      = cfg.maxErrors := by
  obtain ⟨m, hm⟩ : ∃ m, cfg.maxErrors = m + 1 := ⟨cfg.maxErrors - 1, by omega⟩
  have hpre := pollRun_replicate_failure cfg m cfg.initState
    (show cfg.initState.errs + m < cfg.maxErrors by
      have h0 : cfg.initState.errs = 0 := rfl
      omega)
  set st1 := (pollRun cfg cfg.initState (List.replicate m .failure)).state with hst1
  have herrs : st1.errs = m := by
    have h2 := hpre.2.1
    have h0 : cfg.initState.errs = 0 := rfl
    omega
  have hle : cfg.maxErrors ≤ st1.errs + 1 := by omega
  have hstep : pollStep cfg st1 .failure =
      .stop .connectionLost ⟨min (st1.interval * (3 / 2 : ℚ)) 30000, st1.errs + 1, st1.lastSt⟩ := by
    simp [pollStep, hle]
  have hsplit : List.replicate cfg.maxErrors PollEvent.failure ++ post
      = List.replicate m PollEvent.failure ++ (PollEvent.failure :: post) := by
    rw [hm, List.replicate_succ', List.append_assoc, List.singleton_append]
  rw [hsplit, pollRun_append_none cfg (List.replicate m .failure) cfg.initState
    (.failure :: post) hpre.1,
    pollRun_cons_stop cfg st1 _ .failure .connectionLost post hstep]
  refine ⟨rfl, ?_⟩
  simp only [eventIssues]
  rw [hpre.2.2]
  omega

/-!  Helper lemmas about the persistent cache. -/

theorem present_clear (α : Type) (c : Cell α) : (c.clear).present = false := rfl

/-- A get never makes a key present: when nothing is stored, a read keeps
it that way. -/
theorem present_get_false (α : Type) (c : Cell α) (now : Nat)
    (h : c.present = false) : ((c.get now).2).present = false := by
  have hm : c.mirror = none := by
    rcases hmm : c.mirror with _ | x
    · rfl
    · rw [Cell.present, hmm] at h
      simp at h
  have hd : c.durable = none := by
    rcases hdd : c.durable with _ | x
    · rfl
    · rw [Cell.present, hdd] at h
      simp at h
  simp [Cell.get, hm, hd, Cell.present]

theorem exclusive_clearActiveJob (s : Store) : exclusive (clearActiveJob s) :=
  Or.inl rfl

theorem exclusive_clearCompletedResult (s : Store) : exclusive (clearCompletedResult s) :=
  Or.inr rfl

theorem exclusive_getActiveJob (s : Store) (now : Nat) (h : exclusive s) :
    exclusive ((getActiveJob s now).2) := by
  rcases h with h | h
  · left
    have h1 := present_get_false ActiveJob s.activeJob now h
    simpa [getActiveJob] using h1
  · right
    simpa [getActiveJob] using h

theorem exclusive_getCompletedResult (s : Store) (now : Nat) (h : exclusive s) :
    exclusive ((getCompletedResult s now).2) := by
  rcases h with h | h
  · left
    simpa [getCompletedResult] using h
  · right
    have h1 := present_get_false CompletedResult s.completedResult now h
    simpa [getCompletedResult] using h1

theorem exclusive_resumeCheck (s : Store) (now : Nat) (remote : RemoteOutcome)
    (h : exclusive s) : exclusive ((checkAndResumeJob s now remote).store) := by
  unfold checkAndResumeJob
  have h1 := exclusive_getCompletedResult s now h
  cases hc : (getCompletedResult s now).1 with
  | some saved => simpa [hc] using h1
  | none =>
      have h2 := exclusive_getActiveJob (getCompletedResult s now).2 now h1
      cases hj : (getActiveJob (getCompletedResult s now).2 now).1 with
      | none => simpa [hc, hj] using h2
      | some job =>
          cases remote with
          | failed =>
              simp only [hc, hj]
              exact exclusive_clearActiveJob _
          | ok st? =>
              cases st? with
              | none =>
                  simp only [hc, hj]
                  exact exclusive_clearActiveJob _
              | some st =>
                  by_cases hterm : st = .done ∨ st = .error ∨ st = .cancelled
                  · simp only [hc, hj, if_neg (not_not_intro hterm)]
                    exact exclusive_clearActiveJob _
                  · simp only [hc, hj, if_pos hterm]
                    exact h2

/-- Every application flow preserves mutual exclusivity of the activeJob
and completedResult keys. -/
theorem exclusive_applyOp (s : Store) (op : AppOp) (h : exclusive s) :
    exclusive (applyOp s op) := by
  cases op with
  | startJob jobId format now durableOk =>
      right
      simp [applyOp, saveActiveJob, clearCompletedResult, Cell.present, Cell.clear]
  | startAborted => exact exclusive_clearCompletedResult s
  | completeJob gifUrl params format now durableOk =>
      left
      simp [applyOp, handleJobComplete, saveCompletedResult, clearActiveJob,
        Cell.present, Cell.clear]
  | failJob => exact exclusive_clearActiveJob s
  | connLost => exact exclusive_clearActiveJob s
  | resetForm => exact exclusive_clearActiveJob _
  | convertAnother => exact exclusive_clearCompletedResult s
  | readActive now => exact exclusive_getActiveJob s now h
  | readCompleted now => exact exclusive_getCompletedResult s now h
  | resumeCheck now remote => exact exclusive_resumeCheck s now remote h
  | invalidateActiveMirror =>
      rcases h with h | h
      · left
        rw [Cell.present] at h
        simp at h
        simp [applyOp, Cell.present, h.2]
      · right
        simpa [applyOp] using h
  | invalidateCompletedMirror =>
      rcases h with h | h
      · left
        simpa [applyOp] using h
      · right
        rw [Cell.present] at h
        simp at h
        simp [applyOp, Cell.present, h.2]

theorem exclusive_runOps (ops : List AppOp) :
    ∀ s : Store, exclusive s → exclusive (runOps s ops) := by
  induction ops with
  | nil => intro s h; exact h
  | cons op rest ih =>
      intro s h
      have h1 : runOps s (op :: rest) = runOps (applyOp s op) rest := rfl
      rw [h1]
      exact ih _ (exclusive_applyOp s op h)

/-!  Helper lemmas about the history ring buffer. -/

/-- The truncation branch of saveToHistory is extensionally a take LIM. -/
theorem saveToHistory_eq_take (h : List HistoryEntry) (url format : String)
    (params : Option ConvParams) (now : Nat) :
    saveToHistory h url format params now
      = ((⟨url, format, params, now, toString now⟩ : HistoryEntry)
            :: getHistoryList h now).take LIM := by
  show (if ((⟨url, format, params, now, toString now⟩ : HistoryEntry)
          :: getHistoryList h now).length > LIM
      then ((⟨url, format, params, now, toString now⟩ : HistoryEntry)
          :: getHistoryList h now).take LIM
      else ((⟨url, format, params, now, toString now⟩ : HistoryEntry)
          :: getHistoryList h now))
    = ((⟨url, format, params, now, toString now⟩ : HistoryEntry)
          :: getHistoryList h now).take LIM
  split_ifs with hlen
  · rfl
  · exact (List.take_of_length_le (Nat.not_lt.mp hlen)).symm

/-- After at least three pushes whose clock values stay within one TTL
window, the history holds exactly the entries of the last three pushes,
most recent first, whatever list it started from. -/
theorem runHistory_last_three (pushes : List PushCall) :
    ∀ h0 : List HistoryEntry, 3 ≤ pushes.length →
      (∀ p ∈ pushes, ∀ q ∈ pushes, q.now - p.now < STORAGE_TTL) →
      runHistory h0 pushes = (pushes.reverse.take 3).map PushCall.entry := by
  induction pushes with
  | nil =>
      intro h0 hlen _
      simp at hlen
  | cons p rest ih =>
      intro h0 hlen hspan
      have hstep : runHistory h0 (p :: rest)
          = runHistory (saveToHistory h0 p.url p.format p.params p.now) rest := rfl
      by_cases h3 : 3 ≤ rest.length
      · have hspan1 : ∀ a ∈ rest, ∀ b ∈ rest, b.now - a.now < STORAGE_TTL :=
          fun a ha b hb => hspan a (List.mem_cons_of_mem p ha) b (List.mem_cons_of_mem p hb)
        rw [hstep, ih _ h3 hspan1]
        have hrev : ((p :: rest).reverse).take 3 = (rest.reverse).take 3 := by
          rw [List.reverse_cons]
          exact List.take_append_of_le_length (by simpa using h3)
        rw [hrev]
      · have h2 : rest.length = 2 := by
          simp [List.length_cons] at hlen
          omega
        obtain ⟨p2, p3, rfl⟩ := List.length_eq_two.mp h2
        have h12 : p2.now - p.now < STORAGE_TTL := hspan p (by simp) p2 (by simp)
        have h13 : p3.now - p.now < STORAGE_TTL := hspan p (by simp) p3 (by simp)
        have h23 : p3.now - p2.now < STORAGE_TTL := hspan p2 (by simp) p3 (by simp)
        have hs1 : saveToHistory h0 p.url p.format p.params p.now
            = p.entry :: (getHistoryList h0 p.now).take 2 := by
          rw [saveToHistory_eq_take]
          rfl
        have hfil1 : getHistoryList (p.entry :: (getHistoryList h0 p.now).take 2) p2.now
            = p.entry :: getHistoryList ((getHistoryList h0 p.now).take 2) p2.now := by
          unfold getHistoryList
          exact List.filter_cons_of_pos (by simpa [PushCall.entry] using h12)
        have hs2 : saveToHistory (p.entry :: (getHistoryList h0 p.now).take 2)
              p2.url p2.format p2.params p2.now
            = p2.entry :: p.entry ::
                (getHistoryList ((getHistoryList h0 p.now).take 2) p2.now).take 1 := by
          rw [saveToHistory_eq_take, hfil1]
          rfl
        have hfil2 : getHistoryList (p2.entry :: p.entry ::
              (getHistoryList ((getHistoryList h0 p.now).take 2) p2.now).take 1) p3.now
            = p2.entry :: p.entry :: getHistoryList
                ((getHistoryList ((getHistoryList h0 p.now).take 2) p2.now).take 1) p3.now := by
          unfold getHistoryList
          rw [List.filter_cons_of_pos (by simpa [PushCall.entry] using h23),
            List.filter_cons_of_pos (by simpa [PushCall.entry] using h13)]
        have hs3 : saveToHistory (p2.entry :: p.entry ::
              (getHistoryList ((getHistoryList h0 p.now).take 2) p2.now).take 1)
              p3.url p3.format p3.params p3.now
            = [p3.entry, p2.entry, p.entry] := by
          rw [saveToHistory_eq_take, hfil2]
          rfl
        rw [hstep]
        show saveToHistory (saveToHistory (saveToHistory h0 p.url p.format p.params p.now)
            p2.url p2.format p2.params p2.now) p3.url p3.format p3.params p3.now
          = (([p, p2, p3] : List PushCall).reverse.take 3).map PushCall.entry
        rw [hs1, hs2, hs3]
        rfl

/-!  Claim theorems. -/

/-- C3: in pollJobStatus, across any run of consecutive request failures the
poll interval is non-decreasing — at every reachable loop state a failure
sets the interval to min(interval * 1.5, 30000), which is at least the
current interval and never exceeds 30 seconds — and every successful
response resets the interval to the profile's base value (1500 ms
standard, 5000 ms mobile) and the consecutive-error counter to zero. -/
theorem pollJobStatus_backoff (cfg : PollConfig) (hb : 0 < cfg.baseInterval)
    (hcap : cfg.baseInterval ≤ 30000) (l : List PollEvent) :
    standardConfig.baseInterval = 1500 ∧ mobileConfig.baseInterval = 5000 ∧
    (pollRun cfg cfg.initState l).state.interval
      ≤ (stepState cfg (pollRun cfg cfg.initState l).state .failure).interval ∧
    (stepState cfg (pollRun cfg cfg.initState l).state .failure).interval
      = min ((pollRun cfg cfg.initState l).state.interval * (3 / 2 : ℚ)) 30000 ∧
    (stepState cfg (pollRun cfg cfg.initState l).state .failure).interval ≤ 30000 ∧
    (∀ s : JobStatus,
      (stepState cfg (pollRun cfg cfg.initState l).state (.response s)).interval
          = cfg.baseInterval ∧
      (stepState cfg (pollRun cfg cfg.initState l).state (.response s)).errs = 0) := by
  have hgood : goodInterval cfg (pollRun cfg cfg.initState l).state :=
    goodInterval_pollRun cfg hb hcap l cfg.initState (goodInterval_initState cfg hcap)
  set st := (pollRun cfg cfg.initState l).state with hst
  have hpos : (0 : ℚ) ≤ st.interval := le_of_lt (lt_of_lt_of_le hb hgood.1)
  refine ⟨rfl, rfl, ?_, ?_, ?_, ?_⟩
  · rw [stepState_failure]
    exact le_min (by linarith) hgood.2
  · rw [stepState_failure]
  · rw [stepState_failure]
    exact min_le_right _ _
  · intro s
    rw [stepState_response]
    exact ⟨rfl, rfl⟩

/-- Witness for pollJobStatus_backoff: the standard profile, the empty run. -/
theorem pollJobStatus_backoff_witness :
    ((0 : ℚ) < standardConfig.baseInterval ∧ standardConfig.baseInterval ≤ 30000) ∧
    (pollRun standardConfig standardConfig.initState []).state.interval
      ≤ (stepState standardConfig
          (pollRun standardConfig standardConfig.initState []).state .failure).interval := by
  refine ⟨⟨?_, ?_⟩, ?_⟩
  · norm_num [standardConfig]
  · norm_num [standardConfig]
  · exact (pollJobStatus_backoff standardConfig (by norm_num [standardConfig])
      (by norm_num [standardConfig]) []).2.2.1

/-- C4 as stated is refuted: on the standard profile after exactly 5
consecutive timeouts the loop has already returned ConnectionLost while
the error counter equals the maximum (5 = maxErrors) and does not exceed
it — the code transitions on errs >= maxErrs, not on errs > maxErrs. -/
theorem pollJobStatus_connLost_counterexample :
    (pollRun standardConfig standardConfig.initState
        (List.replicate 5 .failure)).outcome = some .connectionLost ∧
    (pollRun standardConfig standardConfig.initState
        (List.replicate 5 .failure)).state.errs = standardConfig.maxErrors ∧
    ¬ (standardConfig.maxErrors <
        (pollRun standardConfig standardConfig.initState
          (List.replicate 5 .failure)).state.errs) := by
  refine ⟨by decide, by decide, by decide⟩

/-- C4 (amended): pollJobStatus transitions to the terminal ConnectionLost
state when the consecutive-error counter reaches (is at least) the
profile's maximum M (5 standard, 3 mobile), and then issues no further
status requests: a fresh run fed maxErrors consecutive failures, followed
by any further events, ends in ConnectionLost with exactly maxErrors
requests issued — so with 6 consecutive timeouts on the standard profile,
ConnectionLost is entered after the 5th failure and no 6th request is
issued. -/
theorem pollJobStatus_connLost_amended (cfg : PollConfig) (hM : 0 < cfg.maxErrors)
    (post : List PollEvent) :
    (pollRun cfg cfg.initState (List.replicate cfg.maxErrors .failure ++ post)).outcome
      = some .connectionLost ∧
    (pollRun cfg cfg.initState (List.replicate cfg.maxErrors .failure ++ post)).requests
      = cfg.maxErrors :=
  pollRun_exhaust cfg hM post

/-- Witness for pollJobStatus_connLost_amended: 6 consecutive timeouts on the
standard profile (5 scripted as the budget plus a 6th pending timeout that
is never requested). -/
theorem pollJobStatus_connLost_amended_witness :
    0 < standardConfig.maxErrors ∧
    (pollRun standardConfig standardConfig.initState
        (List.replicate standardConfig.maxErrors .failure ++ [.failure])).outcome
      = some .connectionLost ∧
    (pollRun standardConfig standardConfig.initState
        (List.replicate standardConfig.maxErrors .failure ++ [.failure])).requests
      = standardConfig.maxErrors := by
  refine ⟨by norm_num [standardConfig], ?_, ?_⟩
  · exact (pollJobStatus_connLost_amended standardConfig
      (by norm_num [standardConfig]) [.failure]).1
  · exact (pollJobStatus_connLost_amended standardConfig
      (by norm_num [standardConfig]) [.failure]).2

/-- C5: once a status response observed by pollJobStatus reports done, error,
or cancelled, the polling loop terminates (returning through _complete or
_err) and no further status requests are ever issued for that job: however
the script continues after that response, the total request count is the
count before it plus the one request that carried it. -/
theorem pollJobStatus_terminal_stops (cfg : PollConfig) (st : PollState)
    (pre post : List PollEvent) (s : JobStatus)
    (hterm : s = .done ∨ s = .error ∨ s = .cancelled)
    (hpolling : (pollRun cfg st pre).outcome = none) :
    ((pollRun cfg st (pre ++ .response s :: post)).outcome = some .completed ∨
      (pollRun cfg st (pre ++ .response s :: post)).outcome = some .failed) ∧
    (pollRun cfg st (pre ++ .response s :: post)).requests
      = (pollRun cfg st pre).requests + 1 := by
  rcases hterm with h | h | h <;> subst h
  · have hstep : pollStep cfg (pollRun cfg st pre).state (.response .done)
        = .stop .completed ⟨cfg.baseInterval, 0, some .done⟩ := by
      simp [pollStep]
    rw [pollRun_append_none cfg pre st (.response .done :: post) hpolling,
      pollRun_cons_stop cfg _ _ _ .completed post hstep]
    exact ⟨Or.inl rfl, rfl⟩
  · have hstep : pollStep cfg (pollRun cfg st pre).state (.response .error)
        = .stop .failed ⟨cfg.baseInterval, 0, some .error⟩ := by
      simp [pollStep]
    rw [pollRun_append_none cfg pre st (.response .error :: post) hpolling,
      pollRun_cons_stop cfg _ _ _ .failed post hstep]
    exact ⟨Or.inr rfl, rfl⟩
  · have hstep : pollStep cfg (pollRun cfg st pre).state (.response .cancelled)
        = .stop .failed ⟨cfg.baseInterval, 0, some .cancelled⟩ := by
      simp [pollStep]
    rw [pollRun_append_none cfg pre st (.response .cancelled :: post) hpolling,
      pollRun_cons_stop cfg _ _ _ .failed post hstep]
    exact ⟨Or.inr rfl, rfl⟩

/-- Witness for pollJobStatus_terminal_stops: a fresh standard run whose
first response is done, with one more scripted event that is never
consumed. -/
theorem pollJobStatus_terminal_stops_witness :
    ((JobStatus.done = JobStatus.done ∨ JobStatus.done = JobStatus.error ∨
        JobStatus.done = JobStatus.cancelled) ∧
      (pollRun standardConfig standardConfig.initState []).outcome = none) ∧
    ((pollRun standardConfig standardConfig.initState
        ([] ++ .response .done :: [.failure])).outcome = some .completed ∨
      (pollRun standardConfig standardConfig.initState
        ([] ++ .response .done :: [.failure])).outcome = some .failed) ∧
    (pollRun standardConfig standardConfig.initState
        ([] ++ .response .done :: [.failure])).requests
      = (pollRun standardConfig standardConfig.initState []).requests + 1 :=
  ⟨⟨Or.inl rfl, rfl⟩,
    pollJobStatus_terminal_stops standardConfig standardConfig.initState [] [.failure]
      .done (Or.inl rfl) rfl⟩

/-- C6 as stated is refuted: on the standard profile, after one failed
request (which backs the interval off to 2250 ms) and one hidden
iteration, the loop is still polling with its interval still 2250 ms, not
the base 1500 ms — so on visibility regain polling resumes at the
backed-off interval (and only at the next scheduled tick), not
immediately at the base interval.  The zero-requests-while-hidden half
does hold: the hidden iteration left the request count at 1. -/
theorem pollJobStatus_hidden_counterexample :
    (pollRun standardConfig standardConfig.initState [.failure, .hidden]).outcome = none ∧
    (pollRun standardConfig standardConfig.initState [.failure, .hidden]).requests = 1 ∧
    (pollRun standardConfig standardConfig.initState [.failure, .hidden]).state.interval
      ≠ standardConfig.baseInterval := by
  refine ⟨by decide, by decide, ?_⟩
  norm_num [pollRun, pollStep, standardConfig, PollConfig.initState, eventIssues, min_def]

/-- C6 (amended): while the hosting page is not visible, pollJobStatus
issues zero status requests and leaves the loop state untouched: a stretch
of hidden iterations is a no-op for the run, so polling resumes at the
next scheduled tick with the interval in effect when the page was hidden —
the base interval only when no failure backoff was pending. -/
theorem pollJobStatus_hidden_amended (cfg : PollConfig) (st : PollState)
    (k : Nat) (rest : List PollEvent) :
    pollStep cfg st .hidden = .next st false ∧
    pollRun cfg st (List.replicate k .hidden ++ rest) = pollRun cfg st rest :=
  ⟨rfl, pollRun_replicate_hidden cfg k st rest⟩

/-- C1: immediately after saveCompletedResult completes, getActiveJob
returns absent (at any read time); saveActiveJob leaves any previously
stored completed result unchanged; and along every sequence of the
application's cache flows from a fresh store — where saveActiveJob occurs
only inside the startConversion flow, whose first statement is
clearCompletedResult — a CompletedResult and an active Job are never both
present in the store. -/
theorem storage_mutual_exclusivity (s : Store) (gifUrl : String)
    (params : Option ConvParams) (format jobId jformat : String)
    (now tR : Nat) (durableOk : Bool) (ops : List AppOp) :
    (getActiveJob (saveCompletedResult s gifUrl params format now durableOk) tR).1 = none ∧
    (saveActiveJob s jobId jformat now durableOk).completedResult = s.completedResult ∧
    exclusive (runOps Store.empty ops) := by
  refine ⟨?_, rfl, ?_⟩
  · simp [saveCompletedResult, clearActiveJob, getActiveJob, Cell.get, Cell.clear]
  · exact exclusive_runOps ops Store.empty (Or.inl rfl)

/-- C2: for every key under which the cache holds an entry (in the mirror,
or durably with an empty mirror) and every read time now: when
now - timestamp exceeds the 24-hour TTL, get returns absent and as a side
effect removes the entry from both the in-memory mirror and the durable
store; when now - timestamp is within the TTL, get returns the stored
entry. -/
theorem cache_ttl_expiry (α : Type) (c : Cell α) (e : Timed α) (now : Nat)
    (hstored : c.mirror = some e ∨ (c.mirror = none ∧ c.durable = some e)) :
    (STORAGE_TTL < now - e.timestamp → c.get now = (none, ⟨none, none⟩)) ∧
    (now - e.timestamp ≤ STORAGE_TTL → (c.get now).1 = some e) := by
  rcases hstored with hm | ⟨hm, hd⟩
  · constructor
    · intro hex
      simp [Cell.get, hm, Cell.clear, hex]
    · intro hfresh
      simp [Cell.get, hm, Nat.not_lt.mpr hfresh]
  · constructor
    · intro hex
      simp [Cell.get, hm, hd, Cell.clear, hex]
    · intro hfresh
      simp [Cell.get, hm, hd, Nat.not_lt.mpr hfresh]

/-- Witness for cache_ttl_expiry: a Nat-valued key stored at time 0, read
one millisecond past the TTL (evicted from both stores) and read at the
TTL boundary (still returned). -/
theorem cache_ttl_expiry_witness :
    ((⟨some ⟨7, 0⟩, some ⟨7, 0⟩⟩ : Cell Nat).mirror = some ⟨7, 0⟩ ∨
      ((⟨some ⟨7, 0⟩, some ⟨7, 0⟩⟩ : Cell Nat).mirror = none ∧
        (⟨some ⟨7, 0⟩, some ⟨7, 0⟩⟩ : Cell Nat).durable = some ⟨7, 0⟩)) ∧
    STORAGE_TTL < (STORAGE_TTL + 1) - (Timed.timestamp (α := Nat) ⟨7, 0⟩) ∧
    (⟨some ⟨7, 0⟩, some ⟨7, 0⟩⟩ : Cell Nat).get (STORAGE_TTL + 1) = (none, ⟨none, none⟩) ∧
    STORAGE_TTL - (Timed.timestamp (α := Nat) ⟨7, 0⟩) ≤ STORAGE_TTL ∧
    ((⟨some ⟨7, 0⟩, some ⟨7, 0⟩⟩ : Cell Nat).get STORAGE_TTL).1 = some ⟨7, 0⟩ := by
  have hstored : (⟨some ⟨7, 0⟩, some ⟨7, 0⟩⟩ : Cell Nat).mirror = some ⟨7, 0⟩ ∨
      ((⟨some ⟨7, 0⟩, some ⟨7, 0⟩⟩ : Cell Nat).mirror = none ∧
        (⟨some ⟨7, 0⟩, some ⟨7, 0⟩⟩ : Cell Nat).durable = some ⟨7, 0⟩) := Or.inl rfl
  have hex : STORAGE_TTL < (STORAGE_TTL + 1) - (Timed.timestamp (α := Nat) ⟨7, 0⟩) := by
    show STORAGE_TTL < STORAGE_TTL + 1 - 0
    omega
  have hfresh : STORAGE_TTL - (Timed.timestamp (α := Nat) ⟨7, 0⟩) ≤ STORAGE_TTL := by
    show STORAGE_TTL - 0 ≤ STORAGE_TTL
    omega
  exact ⟨hstored, hex,
    (cache_ttl_expiry Nat ⟨some ⟨7, 0⟩, some ⟨7, 0⟩⟩ ⟨7, 0⟩ (STORAGE_TTL + 1) hstored).1 hex,
    hfresh,
    (cache_ttl_expiry Nat ⟨some ⟨7, 0⟩, some ⟨7, 0⟩⟩ ⟨7, 0⟩ STORAGE_TTL hstored).2 hfresh⟩

/-- C9: every save operation of the cache is a total function of the state
(the JS try/catch swallows any durable-write failure rather than throwing
to the caller), and even when the durable write fails (durableOk = false,
and equally when it succeeds) a get for the same key later in the same
session returns the value just stored, served from the in-memory mirror;
the saveActiveJob and saveCompletedResult wrappers inherit this. -/
theorem cache_save_mirror_readback (α : Type) (c : Cell α) (v : α)
    (s : Store) (jobId format gifUrl fmt : String) (params : Option ConvParams)
    (tS tR : Nat) (durableOk : Bool) (h : tR - tS ≤ STORAGE_TTL) :
    ((c.save v tS durableOk).get tR).1 = some ⟨v, tS⟩ ∧
    (getActiveJob (saveActiveJob s jobId format tS durableOk) tR).1
      = some ⟨⟨jobId, format⟩, tS⟩ ∧
    (getCompletedResult (saveCompletedResult s gifUrl params fmt tS durableOk) tR).1
      = some ⟨⟨gifUrl, params, fmt⟩, tS⟩ := by
  have hno : ¬ (STORAGE_TTL < tR - tS) := Nat.not_lt.mpr h
  refine ⟨?_, ?_, ?_⟩
  · simp [Cell.save, Cell.get, hno]
  · simp [saveActiveJob, getActiveJob, Cell.save, Cell.get, hno]
  · simp [saveCompletedResult, getCompletedResult, clearActiveJob, Cell.save, Cell.get, hno]

/-- Witness for cache_save_mirror_readback: a failed durable write
(durableOk = false) at time 0 whose value is still read back at time 5
from the mirror, also through both wrappers. -/
theorem cache_save_mirror_readback_witness :
    (5 : Nat) - 0 ≤ STORAGE_TTL ∧
    ((Cell.empty.save (42 : Nat) 0 false).get 5).1 = some ⟨42, 0⟩ ∧
    (getActiveJob (saveActiveJob Store.empty ("j1") ("avif") 0 false) 5).1
      = some ⟨⟨("j1"), ("avif")⟩, 0⟩ ∧
    (getCompletedResult
        (saveCompletedResult Store.empty ("/out/j1.avif") none ("avif") 0 false) 5).1
      = some ⟨⟨("/out/j1.avif"), none, ("avif")⟩, 0⟩ := by
  have h : (5 : Nat) - 0 ≤ STORAGE_TTL := by
    show (5 : Nat) ≤ STORAGE_TTL
    norm_num [STORAGE_TTL]
  have h1 := cache_save_mirror_readback Nat Cell.empty 42 Store.empty ("j1") ("avif")
    ("/out/j1.avif") ("avif") none 0 5 false h
  exact ⟨h, h1.1, h1.2.1, h1.2.2⟩

/-- C10: when pollJobStatus exhausts its error budget (maxErrors
consecutive failures on a fresh run) it returns through the ConnectionLost
path, and the _connLost handler clears the active-job cache entry: a
subsequent getActiveJob returns absent at any read time, and a later page
load's checkAndResumeJob never re-enters polling for the dead job,
whatever its reconciliation request would return. -/
theorem connectionLost_clears_activeJob (cfg : PollConfig) (hM : 0 < cfg.maxErrors)
    (post : List PollEvent) (s : Store) (now tR : Nat) (remote : RemoteOutcome) :
    (pollRun cfg cfg.initState (List.replicate cfg.maxErrors .failure ++ post)).outcome
      = some .connectionLost ∧
    (getActiveJob (handleConnectionLost s) tR).1 = none ∧
    (checkAndResumeJob (handleConnectionLost s) now remote).pollStarted = false := by
  refine ⟨(pollRun_exhaust cfg hM post).1, ?_, ?_⟩
  · simp [handleConnectionLost, clearActiveJob, getActiveJob, Cell.get, Cell.clear]
  · unfold checkAndResumeJob
    cases hc : (getCompletedResult (handleConnectionLost s) now).1 with
    | some saved => simp [hc]
    | none =>
        have hact : (getActiveJob
            (getCompletedResult (handleConnectionLost s) now).2 now).1 = none := by
          simp [handleConnectionLost, clearActiveJob, getCompletedResult, getActiveJob,
            Cell.get, Cell.clear]
        simp [hc, hact]

/-- Witness for connectionLost_clears_activeJob: the standard profile and an
empty store. -/
theorem connectionLost_clears_activeJob_witness :
    0 < standardConfig.maxErrors ∧
    (pollRun standardConfig standardConfig.initState
        (List.replicate standardConfig.maxErrors .failure ++ [])).outcome
      = some .connectionLost ∧
    (getActiveJob (handleConnectionLost Store.empty) 0).1 = none ∧
    (checkAndResumeJob (handleConnectionLost Store.empty) 0 .failed).pollStarted = false := by
  have h := connectionLost_clears_activeJob standardConfig
    (by norm_num [standardConfig]) [] Store.empty 0 0 .failed
  exact ⟨by norm_num [standardConfig], h.1, h.2.1, h.2.2⟩

/-- C7: starting from any history list, performing capacity + k calls to
saveToHistory (k ≥ 0, capacity = LIM = MAX_HISTORY_ITEMS) whose ambient
clock values stay within one TTL window leaves exactly capacity entries —
the entries of the last capacity calls, most recent first in insertion
order, the older entries silently dropped. -/
theorem saveToHistory_capacity (h0 : List HistoryEntry) (pushes : List PushCall)
    (k : Nat) (hlen : pushes.length = LIM + k)
    (hspan : ∀ p ∈ pushes, ∀ q ∈ pushes, q.now - p.now < STORAGE_TTL) :
    runHistory h0 pushes = (pushes.reverse.take LIM).map PushCall.entry ∧
    (runHistory h0 pushes).length = LIM := by
  have h3 : 3 ≤ pushes.length := by
    rw [hlen]
    show 3 ≤ 3 + k
    omega
  have hmain := runHistory_last_three pushes h0 h3 hspan
  constructor
  · rw [hmain]
    rfl
  · rw [hmain, List.length_map, List.length_take, List.length_reverse]
    show min 3 pushes.length = 3
    omega

/-- Witness for saveToHistory_capacity: four pushes (capacity 3 plus one)
at clock values 0, 1, 2, 3 into an initially empty history. -/
theorem saveToHistory_capacity_witness :
    ([⟨("a"), ("gif"), none, 0⟩, ⟨("b"), ("gif"), none, 1⟩,
        ⟨("c"), ("gif"), none, 2⟩, ⟨("d"), ("gif"), none, 3⟩] : List PushCall).length
      = LIM + 1 ∧
    (∀ p ∈ ([⟨("a"), ("gif"), none, 0⟩, ⟨("b"), ("gif"), none, 1⟩,
        ⟨("c"), ("gif"), none, 2⟩, ⟨("d"), ("gif"), none, 3⟩] : List PushCall),
      ∀ q ∈ ([⟨("a"), ("gif"), none, 0⟩, ⟨("b"), ("gif"), none, 1⟩,
        ⟨("c"), ("gif"), none, 2⟩, ⟨("d"), ("gif"), none, 3⟩] : List PushCall),
      q.now - p.now < STORAGE_TTL) ∧
    runHistory [] ([⟨("a"), ("gif"), none, 0⟩, ⟨("b"), ("gif"), none, 1⟩,
        ⟨("c"), ("gif"), none, 2⟩, ⟨("d"), ("gif"), none, 3⟩] : List PushCall)
      = (([⟨("a"), ("gif"), none, 0⟩, ⟨("b"), ("gif"), none, 1⟩,
        ⟨("c"), ("gif"), none, 2⟩, ⟨("d"), ("gif"), none, 3⟩] : List PushCall).reverse.take
          LIM).map PushCall.entry ∧
    (runHistory [] ([⟨("a"), ("gif"), none, 0⟩, ⟨("b"), ("gif"), none, 1⟩,
        ⟨("c"), ("gif"), none, 2⟩, ⟨("d"), ("gif"), none, 3⟩] : List PushCall)).length
      = LIM := by
  have hlen : ([⟨("a"), ("gif"), none, 0⟩, ⟨("b"), ("gif"), none, 1⟩,
      ⟨("c"), ("gif"), none, 2⟩, ⟨("d"), ("gif"), none, 3⟩] : List PushCall).length
      = LIM + 1 := rfl
  have hspan : ∀ p ∈ ([⟨("a"), ("gif"), none, 0⟩, ⟨("b"), ("gif"), none, 1⟩,
      ⟨("c"), ("gif"), none, 2⟩, ⟨("d"), ("gif"), none, 3⟩] : List PushCall),
      ∀ q ∈ ([⟨("a"), ("gif"), none, 0⟩, ⟨("b"), ("gif"), none, 1⟩,
      ⟨("c"), ("gif"), none, 2⟩, ⟨("d"), ("gif"), none, 3⟩] : List PushCall),
      q.now - p.now < STORAGE_TTL := by decide
  have h := saveToHistory_capacity [] _ 1 hlen hspan
  exact ⟨hlen, hspan, h.1, h.2⟩

/-- C8: checkAndResumeJob implements the coordinator algorithm: a cached
CompletedResult is rendered with no status request and no polling;
otherwise a cached active Job triggers exactly one status request — a
terminal (done / error / cancelled) reply clears the active-job pointer
without polling, a non-terminal reply re-enters polling (whose loop state
starts at the base interval), and a failed reconciliation request clears
the pointer defensively without polling; with neither cached, nothing
happens and no request is issued. -/
theorem checkAndResumeJob_algorithm (s : Store) (now tR : Nat) (remote : RemoteOutcome) :
    (∀ saved, (getCompletedResult s now).1 = some saved →
      checkAndResumeJob s now remote
        = ⟨.displayedCompleted saved, (getCompletedResult s now).2, 0, false⟩) ∧
    ((getCompletedResult s now).1 = none →
      (getActiveJob (getCompletedResult s now).2 now).1 = none →
      checkAndResumeJob s now remote
        = ⟨.nothing, (getActiveJob (getCompletedResult s now).2 now).2, 0, false⟩) ∧
    (∀ job, (getCompletedResult s now).1 = none →
      (getActiveJob (getCompletedResult s now).2 now).1 = some job →
      remote = .failed →
      checkAndResumeJob s now remote
        = ⟨.clearedStale,
            clearActiveJob (getActiveJob (getCompletedResult s now).2 now).2, 1, false⟩) ∧
    (∀ job st, (getCompletedResult s now).1 = none →
      (getActiveJob (getCompletedResult s now).2 now).1 = some job →
      remote = .ok (some st) →
      (st = .done ∨ st = .error ∨ st = .cancelled) →
      checkAndResumeJob s now remote
        = ⟨.clearedStale,
            clearActiveJob (getActiveJob (getCompletedResult s now).2 now).2, 1, false⟩) ∧
    (∀ job st, (getCompletedResult s now).1 = none →
      (getActiveJob (getCompletedResult s now).2 now).1 = some job →
      remote = .ok (some st) →
      ¬ (st = .done ∨ st = .error ∨ st = .cancelled) →
      checkAndResumeJob s now remote
        = ⟨.resumedPolling job.value.jobId job.value.format,
            (getActiveJob (getCompletedResult s now).2 now).2, 1, true⟩) ∧
    (∀ s2 : Store, (getActiveJob (clearActiveJob s2) tR).1 = none) ∧
    (∀ cfg : PollConfig, cfg.initState.interval = cfg.baseInterval) := by
  refine ⟨?_, ?_, ?_, ?_, ?_, ?_, ?_⟩
  · intro saved hc
    unfold checkAndResumeJob
    simp only [hc]
  · intro hc hj
    unfold checkAndResumeJob
    simp only [hc, hj]
  · intro job hc hj hrem
    subst hrem
    unfold checkAndResumeJob
    simp only [hc, hj]
  · intro job st hc hj hrem hterm
    subst hrem
    unfold checkAndResumeJob
    simp only [hc, hj, if_neg (not_not_intro hterm)]
  · intro job st hc hj hrem hterm
    subst hrem
    unfold checkAndResumeJob
    simp only [hc, hj, if_pos hterm]
  · intro s2
    simp [clearActiveJob, getActiveJob, Cell.get, Cell.clear]
  · intro cfg
    rfl

/-- Witness for checkAndResumeJob_algorithm: a store holding only a
completed result — it is displayed, no request is issued, no polling
starts. -/
theorem checkAndResumeJob_algorithm_witness :
    (getCompletedResult
        (⟨Cell.empty, ⟨some ⟨⟨("/o"), none, ("gif")⟩, 0⟩, none⟩⟩ : Store) 0).1
      = some ⟨⟨("/o"), none, ("gif")⟩, 0⟩ ∧
    checkAndResumeJob
        (⟨Cell.empty, ⟨some ⟨⟨("/o"), none, ("gif")⟩, 0⟩, none⟩⟩ : Store) 0 .failed
      = ⟨.displayedCompleted ⟨⟨("/o"), none, ("gif")⟩, 0⟩,
          (getCompletedResult
            (⟨Cell.empty, ⟨some ⟨⟨("/o"), none, ("gif")⟩, 0⟩, none⟩⟩ : Store) 0).2,
          0, false⟩ := by
  have hc : (getCompletedResult
      (⟨Cell.empty, ⟨some ⟨⟨("/o"), none, ("gif")⟩, 0⟩, none⟩⟩ : Store) 0).1
      = some ⟨⟨("/o"), none, ("gif")⟩, 0⟩ := by decide
  exact ⟨hc, (checkAndResumeJob_algorithm
    (⟨Cell.empty, ⟨some ⟨⟨("/o"), none, ("gif")⟩, 0⟩, none⟩⟩ : Store) 0 0 .failed).1
    ⟨⟨("/o"), none, ("gif")⟩, 0⟩ hc⟩

end Converter
